import Mathlib

/-!
Verification of the stph_scheldestromen geometry-derivation core.

This file gives a shallow embedding of the data model and of the operations of
the repository (objects/crosssection.py, objects/soillayer.py,
objects/soilprofile.py, objects/scenario.py, helpers.py, settings.py) and
settles the frozen claims about them.

Conventions of the embedding:
* Python floats are modelled as rationals; the regression helper, whose claim
  is explicitly about exact real arithmetic, is modelled over the reals.
* Python exceptions are modelled with an explicit error type: a function that
  can raise returns an `Except PyErr` value.
* The two external collaborators used inside `Scenario.to_dgeoflow_model`,
  namely the shapely polygon-polygon intersection and the numpy based
  `calc_regression` value, are passed in as explicit oracle parameters
  (`orc`, `reg`): the spec itself declares the polygon boolean library and
  the numeric library out of scope.  The shapely line-line intersection of
  the aquifer top line with the left ditch slope is simple enough to be
  modelled concretely (`horizSegIntersection`).
* Log strings carry interpolated numbers; they are modelled as an inductive
  type of log events carrying exactly the interpolated payloads.
-/

namespace Stph

/-- Python min on two rationals (kernel-reducible). -/
def qmin (a b : ℚ) : ℚ := if a ≤ b then a else b

/-- Python max on two rationals (kernel-reducible). -/
def qmax (a b : ℚ) : ℚ := if b ≤ a then a else b

/-- Python exceptions that the modelled code can raise. -/
inductive PyErr
  | attributeError
  | valueError
  | indexError
  | typeError
deriving DecidableEq

/-- objects/crosssection.py: CrosssectionPointType (IntEnum). -/
inductive CrosssectionPointType
  | NONE
  | MV_BINNEN
  | SLOOT_1A
  | SLOOT_1C
  | SLOOT_1D
  | SLOOT_1B
  | WEG_1
  | TEEN_1
  | BERM_1A
  | BERM_1B
  | KRUIN_1
  | KRUIN_2
  | BERM_2A
  | BERM_2B
  | TEEN_2
  | WEG_2
  | SLOOT_2
  | MV_BUITEN
deriving DecidableEq

/-- objects/crosssection.py: CrosssectionPoint. -/
structure CrosssectionPoint where
  x : ℚ
  z : ℚ
  point_type : CrosssectionPointType
deriving DecidableEq

/-- objects/crosssection.py: Crosssection. -/
structure Crosssection where
  points : List CrosssectionPoint
deriving DecidableEq

/-- Linear scan behind `get_point_by_point_type`: first point of the given
type, else none. -/
def getPointAux (t : CrosssectionPointType) :
    List CrosssectionPoint → Option CrosssectionPoint
  | [] => none
  | p :: ps => if p.point_type = t then some p else getPointAux t ps

/-- objects/crosssection.py lines 166-181. -/
def Crosssection.get_point_by_point_type (cs : Crosssection)
    (t : CrosssectionPointType) : Option CrosssectionPoint :=
  getPointAux t cs.points

/-- The loop body of `limit_left` (crosssection.py lines 116-132).  The flag
records whether we are at loop index 1, where the else branch also appends
the first point. -/
def llAux (left : ℚ) : Bool → CrosssectionPoint → List CrosssectionPoint →
    List CrosssectionPoint
  | _, _, [] => []
  | first, p1, p2 :: rest =>
    if p2.x < left then llAux left false p2 rest
    else if p1.x < left ∧ left < p2.x then
      ⟨left, p1.z + (left - p1.x) / (p2.x - p1.x) * (p2.z - p1.z),
        CrosssectionPointType.MV_BUITEN⟩ :: llAux left false p2 rest
    else
      (if first then [p1] else []) ++ p2 :: llAux left false p2 rest

/-- objects/crosssection.py lines 109-136.  The final statement
`self.points[0].point_type = MV_BUITEN` raises an IndexError when the new
point list is empty. -/
def Crosssection.limit_left (cs : Crosssection) (left : ℚ) :
    Except PyErr Crosssection :=
  let new_points :=
    match cs.points with
    | [] => []
    | p1 :: rest => llAux left true p1 rest
  match new_points with
  | [] => .error .indexError
  | h :: t => .ok ⟨{ h with point_type := CrosssectionPointType.MV_BUITEN } :: t⟩

/-- The loop body of `limit_right` (crosssection.py lines 145-160); the
interpolation branch breaks out of the loop. -/
def lrAux (right : ℚ) : Bool → CrosssectionPoint → List CrosssectionPoint →
    List CrosssectionPoint
  | _, _, [] => []
  | first, p1, p2 :: rest =>
    if p1.x < right ∧ right < p2.x then
      [⟨right, p1.z + (right - p1.x) / (p2.x - p1.x) * (p2.z - p1.z),
        CrosssectionPointType.MV_BINNEN⟩]
    else
      (if first then [p1] else []) ++ p2 :: lrAux right false p2 rest

/-- objects/crosssection.py lines 138-164.  As in the source, the final
statement retags `points[0]`, not the last point. -/
def Crosssection.limit_right (cs : Crosssection) (right : ℚ) :
    Except PyErr Crosssection :=
  let new_points :=
    match cs.points with
    | [] => []
    | p1 :: rest => lrAux right true p1 rest
  match new_points with
  | [] => .error .indexError
  | h :: t => .ok ⟨{ h with point_type := CrosssectionPointType.MV_BINNEN } :: t⟩

/-- crosssection.py `left`: min of the x coordinates (Python min raises on an
empty sequence, hence the Option). -/
def Crosssection.leftX (cs : Crosssection) : Option ℚ :=
  match cs.points.map (fun p => p.x) with
  | [] => none
  | v :: vs => some (vs.foldl qmin v)

/-- crosssection.py `right`: max of the x coordinates. -/
def Crosssection.rightX (cs : Crosssection) : Option ℚ :=
  match cs.points.map (fun p => p.x) with
  | [] => none
  | v :: vs => some (vs.foldl qmax v)

/-- objects/soillayer.py: SoilLayer. -/
structure SoilLayer where
  soil_name : String
  top : ℚ
  bottom : ℚ
  is_aquifer : ℤ
  aquifer_number : ℤ
deriving DecidableEq

/-- soillayer.py lines 30-35.  Because of the Python truthiness quirk
`if self.soil_name.find("_"):`, a name starting with an underscore is
returned unchanged; otherwise everything after the first underscore is
dropped (which is also the whole name when no underscore occurs, matching
split). -/
def SoilLayer.short_name (sl : SoilLayer) : String :=
  match sl.soil_name.data with
  | [] => sl.soil_name
  | c :: _ =>
    if c = '_' then sl.soil_name
    else String.mk (sl.soil_name.data.takeWhile (fun ch => ch ≠ '_'))

/-- objects/soilprofile.py: SoilProfile. -/
structure SoilProfile where
  id : ℤ
  soillayers : List SoilLayer
  aquifer_number : ℤ
deriving DecidableEq

/-- Scan behind the `aquifer` property (soilprofile.py lines 38-45): first
layer with `is_aquifer == aquifer_number`, else none. -/
def aquiferAux (n : ℤ) : List SoilLayer → Option SoilLayer
  | [] => none
  | sl :: rest => if sl.is_aquifer = n then some sl else aquiferAux n rest

/-- soilprofile.py lines 38-45. -/
def SoilProfile.aquifer (sp : SoilProfile) : Option SoilLayer :=
  aquiferAux sp.aquifer_number sp.soillayers

/-- soilprofile.py `top` property (raises on an empty profile, hence Option). -/
def SoilProfile.topO (sp : SoilProfile) : Option ℚ :=
  sp.soillayers.head?.map (fun sl => sl.top)

/-- soilprofile.py `bottom` property. -/
def SoilProfile.bottomO (sp : SoilProfile) : Option ℚ :=
  sp.soillayers.getLast?.map (fun sl => sl.bottom)

/-- soilprofile.py lines 61-70: bottoms of the reversed layer list plus the
top of the first layer. -/
def SoilProfile.get_soillayer_z_coordinates (sp : SoilProfile) : List ℚ :=
  (sp.soillayers.reverse.map (fun sl => sl.bottom)) ++
    (match sp.soillayers with
     | [] => []
     | sl :: _ => [sl.top])

/-- Loop of `get_sth_intredepunt_zs` (soilprofile.py lines 82-87): walk the
reversed layer list, collecting bottoms, and stop right after the layer that
equals the aquifer (pydantic compares structurally); falling off the loop is
the implicit Python `return None`. -/
def sthAux (aq : Option SoilLayer) : List SoilLayer → List ℚ → Option (List ℚ)
  | [], _ => none
  | sl :: rest, acc =>
    if some sl = aq then some ((acc ++ [sl.bottom]) ++ [sl.top])
    else sthAux aq rest (acc ++ [sl.bottom])

/-- soilprofile.py lines 72-87. -/
def SoilProfile.get_sth_intredepunt_zs (sp : SoilProfile) : Option (List ℚ) :=
  sthAux sp.aquifer sp.soillayers.reverse []

/-- Loop of `cut_top_at_z` (soilprofile.py lines 95-110). -/
def cutLayers (z : ℚ) : List SoilLayer → List SoilLayer
  | [] => []
  | sl :: rest =>
    if sl.top ≤ z then sl :: cutLayers z rest
    else if z ≤ sl.bottom then cutLayers z rest
    else { sl with top := z } :: cutLayers z rest

/-- soilprofile.py lines 89-111. -/
def SoilProfile.cut_top_at_z (sp : SoilProfile) (z : ℚ) : SoilProfile :=
  { sp with soillayers := cutLayers z sp.soillayers }

/-- The layer invariants of the spec data model: at least one layer, adjacent
layers contiguous (the bottom of a layer is the top of the next), every layer
of strictly positive height. -/
def SoilProfile.Valid (sp : SoilProfile) : Prop :=
  sp.soillayers ≠ [] ∧
    List.Chain' (fun a b => a.bottom = b.top) sp.soillayers ∧
    ∀ sl ∈ sp.soillayers, sl.bottom < sl.top

/-- geolib geometry point (x, z). -/
structure Point where
  x : ℚ
  z : ℚ
deriving DecidableEq

/-- settings.py line 54. -/
def SLOOT_1A_OFFSET : ℚ := 40

/-- settings.py line 38 (in micrometers). -/
def DEFAULT_D70 : ℚ := 100

/-- settings.py line 55. -/
def PIPE_MESH_SIZE : ℚ := 1 / 2

/-- settings.py line 28; defined there but never read by scenario.py. -/
def POLDER_BOUNDARY_WIDTH : ℚ := 1

/-- settings.py lines 42-50. -/
def SOILS_WITH_K_ZAND : List String :=
  ["AA", "DZ", "PL", "PLa", "ZA", "ZAa", "CZ"]

/-- settings.py lines 100-196, in dict insertion order:
(code, k_hor, k_ver, color). -/
def SOILPARAMETERS : List (String × ℚ × ℚ × String) :=
  [("AA", 5, 5, "#b5aeae"),
   ("AV", 1/1000, 1/1000, "#b5aeae"),
   ("BV", 1/1000, 1/1000, "#996d22"),
   ("CK", 1/1000, 1/1000, "#a2e69c"),
   ("CK14", 1/1000, 1/1000, "#a2e69c"),
   ("CK16", 1/1000, 1/1000, "#38ab6c"),
   ("CK18", 1/1000, 1/1000, "#1df00a"),
   ("CZ", 1/100, 1/100, "#b5aeae"),
   ("DK", 1/1000, 1/1000, "#73c99a"),
   ("DK14", 1/1000, 1/1000, "#73c99a"),
   ("DK16", 1/1000, 1/1000, "#098742"),
   ("DK18", 1/1000, 1/1000, "#b5aeae"),
   ("DZ", 5, 5, "#07e86c"),
   ("HV", 1/1000, 1/1000, "#c29904"),
   ("Kla", 1/100, 1/100, "#1b6936"),
   ("PL", 2, 2, "#eaff00"),
   ("PLa", 2, 2, "#eaff00"),
   ("ZA", 2, 2, "#d8e35f"),
   ("ZAa", 2, 2, "#d8e35f")]

/-- Model of the Python `color.replace("#", "")` used in scenario.py
line 642: drop every hash character. -/
def removeHash (s : String) : String :=
  String.mk (s.data.filter (fun c => c ≠ '#'))

/-- One entry of the DGeoFlow soil table (scenario.py lines 634-644). -/
structure SoilEntry where
  code : String
  k_ver : ℚ
  k_hor : ℚ
  color : String
deriving DecidableEq

/-- One `add_layer` call (points, soil code, label). -/
structure LayerEntry where
  points : List Point
  soil_code : String
  label : String
deriving DecidableEq

/-- One `add_boundary_condition` call (points, head level, label). -/
structure BCEntry where
  points : List Point
  head_level : ℚ
  label : String
deriving DecidableEq

/-- geolib CalculationTypeEnum, only the mode the code sets. -/
inductive CalcType
  | pipeLength
deriving DecidableEq

/-- geolib PipeTrajectory: D70 (mm), element size, the two points.  The
erosion direction is the constant RIGHT_TO_LEFT and is omitted. -/
structure PipeTraj where
  d70 : ℚ
  element_size : ℚ
  points : List Point
deriving DecidableEq

/-- The observable state of a DGeoFlowModel: the sequences of calls the
function issued against it. -/
structure Model where
  soils : List SoilEntry := []
  layers : List LayerEntry := []
  boundary_conditions : List BCEntry := []
  calculation_type : Option CalcType := none
  pipe_trajectory : Option PipeTraj := none
deriving DecidableEq

def Model.add_layer (m : Model) (pts : List Point) (soil_code label : String) :
    Model :=
  { m with layers := m.layers ++ [⟨pts, soil_code, label⟩] }

def Model.add_boundary_condition (m : Model) (pts : List Point) (head : ℚ)
    (label : String) : Model :=
  { m with boundary_conditions := m.boundary_conditions ++ [⟨pts, head, label⟩] }

/-- Log events of `to_dgeoflow_model`, carrying exactly the data interpolated
into the Python f-strings. -/
inductive LogLine
  | invalidDitch (dbl_x dbr_x dtr_x : ℚ)
  | addSoil (code : String) (k_ver k_hor : ℚ)
  | intersectionError
  | d03Applied (polderpeil dbl_z aq_top phi : ℚ)
  | noD03Warning
deriving DecidableEq

/-- scenario.py lines 626-645: soil entry and log line for one
SOILPARAMETERS item. -/
def soilStep (k_sand anisotropy_factor : ℚ) (p : String × ℚ × ℚ × String) :
    SoilEntry × LogLine :=
  let code := p.1
  let k_hor := p.2.1
  let k_ver := p.2.2.1
  let color := p.2.2.2
  let kh := if code ∈ SOILS_WITH_K_ZAND then k_sand else k_hor
  let kv := (if code ∈ SOILS_WITH_K_ZAND then k_sand else k_ver) / anisotropy_factor
  (⟨code, kv, kh, removeHash color⟩, LogLine.addSoil code kv kh)

def soilEntries (k_sand anisotropy_factor : ℚ) : List SoilEntry :=
  (SOILPARAMETERS.map (soilStep k_sand anisotropy_factor)).map Prod.fst

def soilLogLines (k_sand anisotropy_factor : ℚ) : List LogLine :=
  (SOILPARAMETERS.map (soilStep k_sand anisotropy_factor)).map Prod.snd

/-- Result of the shapely intersection of one layer rectangle with the
cross-section polygon (scenario.py line 689), as far as the code observes it:
a Polygon (given by its boundary coordinate ring, closing point included), a
MultiPolygon, or any other geometry type (which the code rejects with a
ValueError). -/
inductive ShapelyResult
  | polygon (coords : List Point)
  | multiPolygon (polys : List (List Point))
  | other
deriving DecidableEq

/-- Model of `topline.intersection(ditchline)` followed by the `.x`/`.y`
accesses (scenario.py lines 713-727): the horizontal segment from
(xl, z) to (xr, z) intersected with the segment from c to d.  A single
intersection point is returned; an empty or a collinear result has no `.x`
attribute, which the source catches and turns into a failure, so those cases
are modelled as none. -/
def horizSegIntersection (z xl xr : ℚ) (c d : Point) : Option Point :=
  if c.z = d.z then none
  else if 0 ≤ (z - c.z) / (d.z - c.z) ∧ (z - c.z) / (d.z - c.z) ≤ 1 then
    if qmin xl xr ≤ c.x + (z - c.z) / (d.z - c.z) * (d.x - c.x) ∧
        c.x + (z - c.z) / (d.z - c.z) * (d.x - c.x) ≤ qmax xl xr then
      some ⟨c.x + (z - c.z) / (d.z - c.z) * (d.x - c.x), z⟩
    else none
  else none

/-- Python `list.insert(n, a)` (index clamped to the length). -/
def pyInsert (a : Point) : ℕ → List Point → List Point
  | 0, xs => a :: xs
  | _ + 1, [] => [a]
  | n + 1, x :: xs => x :: pyInsert a n xs

/-- The scenario-2 loop of scenario.py lines 735-763, iterating the indices
`range(len(points) + 1)`: find the first edge (taken cyclically at
`i = len - 1`) strictly straddling the ditch-bottom-left x going rightwards,
interpolate z there, and insert the new point; an edge endpoint already at
that x breaks without assigning; index `len` raises IndexError. -/
def s2go (dblx : ℚ) (pts : List Point) :
    List ℕ → Except PyErr (Option Point × List Point)
  | [] => .ok (none, pts)
  | i :: rest =>
    match pts.get? i with
    | none => .error .indexError
    | some p1 =>
      match (if i = pts.length - 1 then pts.get? 0 else pts.get? (i + 1)) with
      | none => .error .indexError
      | some p2 =>
        if p1.x = dblx ∨ p2.x = dblx then .ok (none, pts)
        else if p1.x < p2.x ∧ p1.x < dblx ∧ dblx < p2.x then
          let zz := p1.z + (dblx - p1.x) * (p2.z - p1.z) / (p2.x - p1.x)
          .ok (some ⟨dblx, zz⟩, pyInsert ⟨dblx, zz⟩ (i + 1) pts)
        else s2go dblx pts rest

def s2run (dblx : ℚ) (pts : List Point) :
    Except PyErr (Option Point × List Point) :=
  s2go dblx pts (List.range (pts.length + 1))

/-- Outcome of the polygon loop: either the early `return log, None` of the
failed slope intersection, or the accumulated model plus pipe start. -/
inductive LoopRes
  | ret (extra : List LogLine)
  | cont (m : Model) (pipe : Option Point)

/-- Handling of one polygon geometry of one layer (scenario.py lines
701-769).  `coords` is the boundary ring; the code drops its closing point.
For the aquifer layer: if the aquifer top is strictly above the ditch bottom
the pipe start is the intersection of the aquifer top line with the left
ditch slope (a failure is the recoverable early return); otherwise the
scenario-2 loop runs.  Every geometry is then added as a layer. -/
def geomStep (aq : Option SoilLayer) (dbl : CrosssectionPoint)
    (dtl : Option CrosssectionPoint) (left_limit right_limit : ℚ)
    (layer : SoilLayer) (m : Model) (pipe : Option Point)
    (coords : List Point) : Except PyErr LoopRes :=
  if some layer = aq then
    if dbl.z < layer.top then
      if coords.dropLast.isEmpty then .error .indexError
      else
        match dtl with
        | none => .error .attributeError
        | some dtlp =>
          match horizSegIntersection layer.top left_limit right_limit
              ⟨dtlp.x, dtlp.z⟩ ⟨dbl.x, dbl.z⟩ with
          | some ip =>
            .ok (.cont
              (m.add_layer coords.dropLast layer.short_name layer.soil_name)
              (some ip))
          | none => .ok (.ret [LogLine.intersectionError])
    else
      match s2run dbl.x coords.dropLast with
      | .error e => .error e
      | .ok (asg, pts2) =>
        .ok (.cont (m.add_layer pts2 layer.short_name layer.soil_name)
          (match asg with | some p => some p | none => pipe))
  else
    .ok (.cont (m.add_layer coords.dropLast layer.short_name layer.soil_name)
      pipe)

/-- Inner loop over the geometries of one (multi)polygon. -/
def geomsLoop (aq : Option SoilLayer) (dbl : CrosssectionPoint)
    (dtl : Option CrosssectionPoint) (ll rl : ℚ) (layer : SoilLayer) :
    Model → Option Point → List (List Point) → Except PyErr LoopRes
  | m, pipe, [] => .ok (.cont m pipe)
  | m, pipe, c :: cs =>
    match geomStep aq dbl dtl ll rl layer m pipe c with
    | .error e => .error e
    | .ok (.ret ex) => .ok (.ret ex)
    | .ok (.cont m2 p2) => geomsLoop aq dbl dtl ll rl layer m2 p2 cs

/-- Outer loop over the soil layers (scenario.py lines 688-769): the oracle
gives the shapely intersection of the layer rectangle with the cross-section
polygon; any type other than Polygon or MultiPolygon raises ValueError. -/
def layersLoop (orc : SoilLayer → ShapelyResult) (aq : Option SoilLayer)
    (dbl : CrosssectionPoint) (dtl : Option CrosssectionPoint) (ll rl : ℚ) :
    Model → Option Point → List SoilLayer → Except PyErr LoopRes
  | m, pipe, [] => .ok (.cont m pipe)
  | m, pipe, layer :: rest =>
    match
      (match orc layer with
       | .polygon c => some [c]
       | .multiPolygon cs => some cs
       | .other => none) with
    | none => .error .valueError
    | some gs =>
      match geomsLoop aq dbl dtl ll rl layer m pipe gs with
      | .error e => .error e
      | .ok (.ret ex) => .ok (.ret ex)
      | .ok (.cont m2 p2) => layersLoop orc aq dbl dtl ll rl m2 p2 rest

/-- objects/scenario.py: Scenario (the fields `to_dgeoflow_model` reads). -/
structure Scenario where
  name : String
  crosssection : Crosssection
  soilprofile : SoilProfile
  slootnummer : String
  max_zp_wp : ℚ
  gehanteerd_polderpeil : ℚ
  bovengrens_slootpeil : ℚ
  ondergrens_slootpeil : ℚ
  slootpeil : ℚ
  waterstand_bij_norm : ℚ
  x_intredepunt : ℚ
  x_uittredepunt : ℚ
  sth_intredepunt : ℚ
  sth_uittredepunt : ℚ

/-- Sequencing of a possibly raising step (a Python statement). -/
def bindE {α β : Type} : Except PyErr α → (α → Except PyErr β) → Except PyErr β
  | .error e, _ => .error e
  | .ok a, f => f a

/-- The tail of `to_dgeoflow_model` after every possible raise (scenario.py
lines 771-855): the three or four boundary conditions, the calculation type
and the pipe trajectory, added to the model `m1` that came out of the layer
loop.  `zs` is the result of `get_sth_intredepunt_zs`, `xl`/`xr` the
truncated cross-section extremes, `aq` the aquifer layer, `ps` the pipe
start. -/
def finishModel (sc : Scenario) (sealevel_rise : ℚ) (use_surface_boundary : Bool)
    (reg : ℚ → ℚ → ℚ → ℚ → ℚ) (dbl dbr dtr : CrosssectionPoint) (m1 : Model)
    (zs : List ℚ) (xl xr : ℚ) (aq : SoilLayer) (ps : Point) : Model :=
  let sth_in := sc.sth_intredepunt + sealevel_rise
  let m2 := m1.add_boundary_condition
    (zs.map (fun zc => Point.mk xl zc)) sth_in "phi_ws"
  let m3 := m2.add_boundary_condition
    (zs.reverse.map (fun zc => Point.mk xr zc))
    (reg (sc.x_uittredepunt - sc.x_intredepunt) sth_in sc.sth_uittredepunt
      (xr - sc.x_intredepunt)) "phi_hinter"
  let d03 := qmax (dbl.z - aq.top) 0
  let m4 := m3.add_boundary_condition
    [Point.mk dbl.x dbl.z, Point.mk dbr.x dbr.z]
    (if 0 < d03 then sc.gehanteerd_polderpeil + (3 / 10) * d03
     else sc.gehanteerd_polderpeil) "polder"
  let m5 := if use_surface_boundary then
      m4.add_boundary_condition
        [Point.mk dtr.x dtr.z, Point.mk (dtr.x + SLOOT_1A_OFFSET) dtr.z]
        dtr.z "water surface"
    else m4
  { m5 with
    calculation_type := some CalcType.pipeLength,
    pipe_trajectory := some ⟨DEFAULT_D70 / 1000, PIPE_MESH_SIZE,
      [Point.mk ps.x aq.top, Point.mk sc.x_intredepunt aq.top]⟩ }

/-- The log of a fully successful run: the soil lines plus the 0.3d line (or
the caveat warning). -/
def finishLog (sc : Scenario) (k_sand anisotropy_factor : ℚ)
    (dbl : CrosssectionPoint) (aq : SoilLayer) : List LogLine :=
  soilLogLines k_sand anisotropy_factor ++
    (if 0 < qmax (dbl.z - aq.top) 0 then
      [LogLine.d03Applied sc.gehanteerd_polderpeil dbl.z aq.top
        (sc.gehanteerd_polderpeil + (3 / 10) * qmax (dbl.z - aq.top) 0)]
    else [LogLine.noD03Warning])

/-- Attribute or item access on an optional value: Python raises when the
value is None. -/
def fromOpt {α : Type} (e : PyErr) : Option α → Except PyErr α
  | none => .error e
  | some a => .ok a

/-- scenario.py lines 588-857, `Scenario.to_dgeoflow_model`.

Inputs beyond the Python signature: `orc` is the shapely polygon-intersection
oracle (the per-layer result of `spg.polygon.intersection(crs_polygon)`), and
`reg dx y1 y2 xq` is the value of `calc_regression([0.1, dx], [y1, y2], xq)[1]`.

The returned triple is (log, model or None, cross-section after the in-place
truncation); a Python exception is the `.error` case.  Faithful behaviour
notes:
* a missing SLOOT_1D, SLOOT_1C or SLOOT_1A point makes the ordering check or
  its log f-string dereference None, an AttributeError;
* the ordering violation and the failed slope intersection are the only two
  `return log, None` paths;
* a missing SLOOT_1B is only dereferenced inside the aquifer branch;
* `get_sth_intredepunt_zs()` returning None makes the boundary list
  comprehension iterate None, a TypeError;
* a never-assigned pipe start is dereferenced at the end, an AttributeError. -/
def Scenario.to_dgeoflow_model (sc : Scenario) (k_sand anisotropy_factor : ℚ)
    (sealevel_rise : ℚ) (use_surface_boundary : Bool)
    (orc : SoilLayer → ShapelyResult) (reg : ℚ → ℚ → ℚ → ℚ → ℚ) :
    Except PyErr (List LogLine × Option Model × Crosssection) :=
  bindE (fromOpt .attributeError
      (sc.crosssection.get_point_by_point_type .SLOOT_1D)) fun dbl =>
  bindE (fromOpt .attributeError
      (sc.crosssection.get_point_by_point_type .SLOOT_1C)) fun dbr =>
  bindE (fromOpt .attributeError
      (sc.crosssection.get_point_by_point_type .SLOOT_1A)) fun dtr =>
  if dbl.x ≥ dbr.x ∨ dbr.x ≥ dtr.x then
    .ok ([LogLine.invalidDitch dbl.x dbr.x dtr.x], none, sc.crosssection)
  else
  bindE (sc.crosssection.limit_left sc.x_intredepunt) fun cs1 =>
  bindE (cs1.limit_right (dtr.x + SLOOT_1A_OFFSET)) fun cs2 =>
  bindE (layersLoop orc sc.soilprofile.aquifer dbl
      (sc.crosssection.get_point_by_point_type .SLOOT_1B)
      sc.x_intredepunt (dtr.x + SLOOT_1A_OFFSET)
      { soils := soilEntries k_sand anisotropy_factor } none
      sc.soilprofile.soillayers) fun lr =>
  match lr with
  | .ret extra =>
    .ok (soilLogLines k_sand anisotropy_factor ++ extra, none, cs2)
  | .cont m1 pipe =>
    bindE (fromOpt .typeError sc.soilprofile.get_sth_intredepunt_zs) fun zs =>
    bindE (fromOpt .valueError cs2.leftX) fun xl =>
    bindE (fromOpt .valueError cs2.rightX) fun xr =>
    bindE (fromOpt .attributeError sc.soilprofile.aquifer) fun aq =>
    bindE (fromOpt .attributeError pipe) fun ps =>
    .ok (finishLog sc k_sand anisotropy_factor dbl aq,
      some (finishModel sc sealevel_rise use_surface_boundary reg
        dbl dbr dtr m1 zs xl xr aq ps),
      cs2)

/-- helpers.py lines 20-29, over the reals.  `np.polyfit(log(x), y, 1)` on
two samples with distinct positive x solves the two-by-two Vandermonde
system exactly (least squares on a square invertible system); the closed
form below is that solution by Cramer.  The second component is
`y_fit[-1]`, the fitted value at `x_interp`. -/
noncomputable def calc_regression (x1 x2 y1 y2 x_interp : ℝ) : (ℝ × ℝ) × ℝ :=
  let u1 := Real.log x1
  let u2 := Real.log x2
  let a := (y1 - y2) / (u1 - u2)
  let b := (u1 * y2 - u2 * y1) / (u1 - u2)
  ((a, b), Real.log x_interp * a + b)

/-! Projections on the result of `to_dgeoflow_model`, used to state the
claims without spelling out whole models. -/

def RunResult : Type := Except PyErr (List LogLine × Option Model × Crosssection)

deriving instance DecidableEq for Except

instance : DecidableEq RunResult :=
  inferInstanceAs (DecidableEq (Except PyErr (List LogLine × Option Model × Crosssection)))

def resultModel : RunResult → Option Model
  | .ok (_, some m, _) => some m
  | _ => none

def resultLog : RunResult → Option (List LogLine)
  | .ok (lg, _, _) => some lg
  | _ => none

def resultCS : RunResult → Option Crosssection
  | .ok (_, _, cs) => some cs
  | _ => none

/-- Did the run succeed with a model? -/
def isOkSome : RunResult → Bool
  | .ok (_, some _, _) => true
  | _ => false

/-- The boundary condition labelled polder, if any. -/
def polderBC (m : Model) : Option BCEntry :=
  m.boundary_conditions.find? (fun bc => bc.label == "polder")

/-- The first point of the pipe trajectory, if any. -/
def pipeFirstPoint (m : Model) : Option Point :=
  m.pipe_trajectory.bind (fun pt => pt.points.head?)

/-- What any assignment to the pipe-start variable inside the layer loop
looks like: it happens in the aquifer branch only; above the ditch bottom it
is the slope intersection, otherwise its x coordinate is the
ditch-bottom-left x. -/
def AssignedPipe (aq : Option SoilLayer) (dbl : CrosssectionPoint)
    (dtl : Option CrosssectionPoint) (ll rl : ℚ) (p : Point) : Prop :=
  ∃ a, aq = some a ∧
    ((dbl.z < a.top ∧ ∃ dtlp, dtl = some dtlp ∧
        horizSegIntersection a.top ll rl ⟨dtlp.x, dtlp.z⟩ ⟨dbl.x, dbl.z⟩ = some p)
     ∨ (¬ dbl.z < a.top ∧ p.x = dbl.x))

/-! Concrete instances used by the witnesses and counterexamples. -/

/-- A regression oracle returning a constant head (its value is irrelevant to
the properties checked on the concrete runs). -/
def regZero : ℚ → ℚ → ℚ → ℚ → ℚ := fun _ _ _ _ => 0

/-- The example cross-section of the spec: Sloot_1d = (10, -2),
Sloot_1c = (13, -2), Sloot_1a = (20, 1), plus a left slope point Sloot_1b and
flat surface points on both sides. -/
def csW : Crosssection :=
  ⟨[⟨0, 1, .NONE⟩, ⟨9, 0, .SLOOT_1B⟩, ⟨10, -2, .SLOOT_1D⟩,
    ⟨13, -2, .SLOOT_1C⟩, ⟨20, 1, .SLOOT_1A⟩, ⟨30, 1, .MV_BINNEN⟩]⟩

/-- Cover layer above the example aquifer. -/
def layerTopW : SoilLayer := ⟨"CK_klei", 1, -1, 0, 1⟩

/-- The example aquifer layer of the spec: top = -1, bottom = -6. -/
def layerAqW : SoilLayer := ⟨"PL_Aq", -1, -6, 1, 1⟩

def spW : SoilProfile := ⟨1, [layerTopW, layerAqW], 1⟩

/-- The example scenario. -/
def scW : Scenario :=
  { name := "scW", crosssection := csW, soilprofile := spW,
    slootnummer := "1", max_zp_wp := 0, gehanteerd_polderpeil := -1,
    bovengrens_slootpeil := 0, ondergrens_slootpeil := 0, slootpeil := 0,
    waterstand_bij_norm := 2, x_intredepunt := 0, x_uittredepunt := 15,
    sth_intredepunt := 2, sth_uittredepunt := 1 }

/-- Shapely oracle for the example scenario: each layer rectangle clipped by
the cross-section polygon, given by its boundary ring. -/
def orcW : SoilLayer → ShapelyResult := fun l =>
  if l = layerAqW then
    .polygon [⟨0, -1⟩, ⟨60, -1⟩, ⟨60, -6⟩, ⟨0, -6⟩, ⟨0, -1⟩]
  else
    .polygon [⟨0, 1⟩, ⟨60, 1⟩, ⟨60, -1⟩, ⟨0, -1⟩, ⟨0, 1⟩]

/-- The example run (k_sand = 6, anisotropy 2, no sea level rise). -/
def runW : RunResult := scW.to_dgeoflow_model 6 2 0 true orcW regZero

/-- A cross-section without any ditch point. -/
def csND : Crosssection := ⟨[⟨0, 1, .NONE⟩, ⟨30, 1, .MV_BINNEN⟩]⟩

def scND : Scenario := { scW with crosssection := csND }

/-- Run of the scenario without ditch points. -/
def runND : RunResult := scND.to_dgeoflow_model 6 2 0 true orcW regZero

/-- A cross-section with a degenerate ditch: the ditch-bottom-left point lies
right of the ditch-bottom-right point. -/
def csB : Crosssection :=
  ⟨[⟨13, -2, .SLOOT_1D⟩, ⟨10, -2, .SLOOT_1C⟩, ⟨20, 1, .SLOOT_1A⟩]⟩

def scB : Scenario := { scW with crosssection := csB }

/-- The three-layer soil profile of tests/test_soilprofile.py. -/
def spT : SoilProfile :=
  ⟨-1, [⟨"A", 2, 0, -1, -1⟩, ⟨"B", 0, -5, -1, -1⟩, ⟨"C", -5, -10, -1, -1⟩], -1⟩

/-- A profile whose bottom layer has zero height: it satisfies contiguity,
non-overlap and strictly decreasing tops as literally stated. -/
def spZ : SoilProfile := ⟨7, [⟨"A", 10, 5, 0, 0⟩, ⟨"B", 5, 5, 0, 0⟩], -1⟩

/-! ## Helper lemmas -/

theorem bindE_eq_ok {α β : Type} {x : Except PyErr α} {f : α → Except PyErr β}
    {b : β} : bindE x f = .ok b ↔ ∃ a, x = .ok a ∧ f a = .ok b := by
  cases x <;> simp [bindE]

theorem fromOpt_eq_ok {α : Type} {e : PyErr} {o : Option α} {a : α} :
    fromOpt e o = .ok a ↔ o = some a := by
  cases o <;> simp [fromOpt]

theorem isOkSome_eq_true_iff {r : RunResult} :
    isOkSome r = true ↔ ∃ lg m cs, r = .ok (lg, some m, cs) := by
  rcases r with e | ⟨lg, m?, cs⟩
  · simp [isOkSome]
  · rcases m? with _ | m
    · simp only [isOkSome, Bool.false_eq_true, false_iff]
      rintro ⟨lg2, m2, cs2, hh⟩
      injection hh with h1
      injection h1 with h2 h3
      injection h3 with h4 h5
      exact Option.noConfusion h4
    · simp only [isOkSome, true_iff]
      exact ⟨lg, m, cs, rfl⟩

theorem ok_none_ne_ok_some {lg l : List LogLine} {m : Model}
    {cs csf : Crosssection} :
    (Except.ok (lg, none, cs) :
        Except PyErr (List LogLine × Option Model × Crosssection)) =
      .ok (l, some m, csf) → False := by
  intro hh
  injection hh with h1
  injection h1 with h2 h3
  injection h3 with h4 h5
  exact Option.noConfusion h4

/-- Inversion of a fully successful run: all intermediate results exist, and
the final log and model are the `finishLog`/`finishModel` of those
intermediates. -/
theorem to_dgeoflow_model_ok_some (sc : Scenario) (ks af slr : ℚ) (usb : Bool)
    (orc : SoilLayer → ShapelyResult) (reg : ℚ → ℚ → ℚ → ℚ → ℚ)
    (l : List LogLine) (m : Model) (csf : Crosssection)
    (h : sc.to_dgeoflow_model ks af slr usb orc reg = .ok (l, some m, csf)) :
    ∃ dbl dbr dtr cs1 m1 ps zs xl xr aq,
      sc.crosssection.get_point_by_point_type .SLOOT_1D = some dbl ∧
      sc.crosssection.get_point_by_point_type .SLOOT_1C = some dbr ∧
      sc.crosssection.get_point_by_point_type .SLOOT_1A = some dtr ∧
      ¬ (dbl.x ≥ dbr.x ∨ dbr.x ≥ dtr.x) ∧
      sc.crosssection.limit_left sc.x_intredepunt = .ok cs1 ∧
      cs1.limit_right (dtr.x + SLOOT_1A_OFFSET) = .ok csf ∧
      layersLoop orc sc.soilprofile.aquifer dbl
        (sc.crosssection.get_point_by_point_type .SLOOT_1B)
        sc.x_intredepunt (dtr.x + SLOOT_1A_OFFSET)
        { soils := soilEntries ks af } none sc.soilprofile.soillayers
        = .ok (.cont m1 (some ps)) ∧
      sc.soilprofile.get_sth_intredepunt_zs = some zs ∧
      csf.leftX = some xl ∧
      csf.rightX = some xr ∧
      sc.soilprofile.aquifer = some aq ∧
      l = finishLog sc ks af dbl aq ∧
      m = finishModel sc slr usb reg dbl dbr dtr m1 zs xl xr aq ps := by
  unfold Scenario.to_dgeoflow_model at h
  simp only [bindE_eq_ok, fromOpt_eq_ok] at h
  obtain ⟨dbl, hdbl, h⟩ := h
  obtain ⟨dbr, hdbr, h⟩ := h
  obtain ⟨dtr, hdtr, h⟩ := h
  by_cases hcond : dbl.x ≥ dbr.x ∨ dbr.x ≥ dtr.x
  · rw [if_pos hcond] at h
    exact (ok_none_ne_ok_some h).elim
  · rw [if_neg hcond] at h
    simp only [bindE_eq_ok, fromOpt_eq_ok] at h
    obtain ⟨cs1, hll, h⟩ := h
    obtain ⟨cs2, hlr, h⟩ := h
    obtain ⟨lr, hloop, h⟩ := h
    cases lr with
    | ret ex =>
      simp only [] at h
      exact (ok_none_ne_ok_some h).elim
    | cont m1 pipe =>
      simp only [bindE_eq_ok, fromOpt_eq_ok] at h
      obtain ⟨zs, hzs, h⟩ := h
      obtain ⟨xl, hxl, h⟩ := h
      obtain ⟨xr, hxr, h⟩ := h
      obtain ⟨aq, haq, h⟩ := h
      obtain ⟨ps, hps, h⟩ := h
      injection h with h1
      injection h1 with hL h23
      injection h23 with hM hC
      injection hM with hMv
      subst hC
      refine ⟨dbl, dbr, dtr, cs1, m1, ps, zs, xl, xr, aq,
        hdbl, hdbr, hdtr, hcond, hll, hlr, ?_, hzs, hxl, hxr, haq,
        hL.symm, hMv.symm⟩
      rw [hps] at hloop
      exact hloop

/-- Any point assigned by the scenario-2 loop has the ditch-bottom-left x
coordinate. -/
theorem s2go_assign {dblx : ℚ} {pts : List Point} {idxs : List ℕ} {p : Point}
    {pts2 : List Point} (h : s2go dblx pts idxs = .ok (some p, pts2)) :
    p.x = dblx := by
  induction idxs with
  | nil =>
    rw [s2go] at h
    injection h with h1
    injection h1 with h2 h3
    exact Option.noConfusion h2
  | cons i rest ih =>
    rw [s2go] at h
    split at h
    · exact Except.noConfusion h
    · split at h
      · exact Except.noConfusion h
      · split at h
        · injection h with h1
          injection h1 with h2 h3
          exact Option.noConfusion h2
        · split at h
          · injection h with h1
            injection h1 with h2 h3
            injection h2 with h4
            rw [← h4]
          · exact ih h

theorem s2run_assign {dblx : ℚ} {pts : List Point} {p : Point}
    {pts2 : List Point} (h : s2run dblx pts = .ok (some p, pts2)) :
    p.x = dblx :=
  s2go_assign h

/-- One geometry step: the model fields other than the layer list are
untouched, and the pipe-start variable is either left alone or assigned a
value of the shape `AssignedPipe`. -/
theorem geomStep_cont {aq : Option SoilLayer} {dbl : CrosssectionPoint}
    {dtl : Option CrosssectionPoint} {ll rl : ℚ} {layer : SoilLayer}
    {m : Model} {pipe : Option Point} {c : List Point} {m2 : Model}
    {p2 : Option Point}
    (h : geomStep aq dbl dtl ll rl layer m pipe c = .ok (.cont m2 p2)) :
    m2.boundary_conditions = m.boundary_conditions ∧
    m2.calculation_type = m.calculation_type ∧
    m2.pipe_trajectory = m.pipe_trajectory ∧
    m2.soils = m.soils ∧
    (p2 = pipe ∨ ∃ p, p2 = some p ∧ AssignedPipe aq dbl dtl ll rl p) := by
  unfold geomStep at h
  split at h
  case isTrue hlaq =>
    split at h
    case isTrue hlt =>
      split at h
      case isTrue => exact Except.noConfusion h
      case isFalse =>
        split at h
        case h_1 => exact Except.noConfusion h
        case h_2 _ dtlp =>
          split at h
          case h_1 ip hint =>
            injection h with h1
            injection h1 with hm hp
            subst hm
            subst hp
            refine ⟨rfl, rfl, rfl, rfl, Or.inr ⟨ip, rfl, layer, hlaq.symm,
              Or.inl ⟨hlt, dtlp, rfl, hint⟩⟩⟩
          case h_2 hint =>
            injection h with h1
            exact LoopRes.noConfusion h1
    case isFalse hge =>
      split at h
      case h_1 => exact Except.noConfusion h
      case h_2 asg pts2 hs2 =>
        injection h with h1
        injection h1 with hm hp
        subst hm
        subst hp
        refine ⟨rfl, rfl, rfl, rfl, ?_⟩
        cases asg with
        | none => exact Or.inl rfl
        | some p =>
          exact Or.inr ⟨p, rfl, layer, hlaq.symm,
            Or.inr ⟨hge, s2run_assign hs2⟩⟩
  case isFalse =>
    injection h with h1
    injection h1 with hm hp
    subst hm
    subst hp
    exact ⟨rfl, rfl, rfl, rfl, Or.inl rfl⟩

/-- The inner geometry loop preserves the non-layer model fields and only
changes the pipe start through assignments of shape `AssignedPipe`. -/
theorem geomsLoop_cont {aq : Option SoilLayer} {dbl : CrosssectionPoint}
    {dtl : Option CrosssectionPoint} {ll rl : ℚ} {layer : SoilLayer} :
    ∀ {gs : List (List Point)} {m : Model} {pipe : Option Point} {m2 : Model}
      {p2 : Option Point},
    geomsLoop aq dbl dtl ll rl layer m pipe gs = .ok (.cont m2 p2) →
    m2.boundary_conditions = m.boundary_conditions ∧
    m2.calculation_type = m.calculation_type ∧
    m2.pipe_trajectory = m.pipe_trajectory ∧
    m2.soils = m.soils ∧
    (p2 = pipe ∨ ∃ p, p2 = some p ∧ AssignedPipe aq dbl dtl ll rl p)
  | [], m, pipe, m2, p2, h => by
    rw [geomsLoop] at h
    injection h with h1
    injection h1 with hm hp
    subst hm
    subst hp
    exact ⟨rfl, rfl, rfl, rfl, Or.inl rfl⟩
  | c :: cs, m, pipe, m2, p2, h => by
    rw [geomsLoop] at h
    split at h
    · exact Except.noConfusion h
    · exact LoopRes.noConfusion (by injection h)
    · rename_i mm pp hstep
      obtain ⟨hb, hc, hp, hs, hpp⟩ := geomStep_cont hstep
      obtain ⟨hb2, hc2, hp2, hs2, hpp2⟩ := geomsLoop_cont h
      refine ⟨hb2.trans hb, hc2.trans hc, hp2.trans hp, hs2.trans hs, ?_⟩
      rcases hpp2 with rfl | hx
      · exact hpp
      · exact Or.inr hx

/-- The outer layer loop preserves the non-layer model fields and only
changes the pipe start through assignments of shape `AssignedPipe`. -/
theorem layersLoop_cont {orc : SoilLayer → ShapelyResult}
    {aq : Option SoilLayer} {dbl : CrosssectionPoint}
    {dtl : Option CrosssectionPoint} {ll rl : ℚ} :
    ∀ {ls : List SoilLayer} {m : Model} {pipe : Option Point} {m2 : Model}
      {p2 : Option Point},
    layersLoop orc aq dbl dtl ll rl m pipe ls = .ok (.cont m2 p2) →
    m2.boundary_conditions = m.boundary_conditions ∧
    m2.calculation_type = m.calculation_type ∧
    m2.pipe_trajectory = m.pipe_trajectory ∧
    m2.soils = m.soils ∧
    (p2 = pipe ∨ ∃ p, p2 = some p ∧ AssignedPipe aq dbl dtl ll rl p)
  | [], m, pipe, m2, p2, h => by
    rw [layersLoop] at h
    injection h with h1
    injection h1 with hm hp
    subst hm
    subst hp
    exact ⟨rfl, rfl, rfl, rfl, Or.inl rfl⟩
  | layer :: rest, m, pipe, m2, p2, h => by
    rw [layersLoop] at h
    split at h
    · exact Except.noConfusion h
    · rename_i gs hgs
      split at h
      · exact Except.noConfusion h
      · exact LoopRes.noConfusion (by injection h)
      · rename_i mm pp hgl
        obtain ⟨hb, hc, hp, hs, hpp⟩ := geomsLoop_cont hgl
        obtain ⟨hb2, hc2, hp2, hs2, hpp2⟩ := layersLoop_cont h
        refine ⟨hb2.trans hb, hc2.trans hc, hp2.trans hp, hs2.trans hs, ?_⟩
        rcases hpp2 with rfl | hx
        · exact hpp
        · exact Or.inr hx

/-- A layer loop started with no pipe start that ends with one must have
assigned it in the aquifer branch. -/
theorem layersLoop_pipe_assigned {orc : SoilLayer → ShapelyResult}
    {aq : Option SoilLayer} {dbl : CrosssectionPoint}
    {dtl : Option CrosssectionPoint} {ll rl : ℚ} {ls : List SoilLayer}
    {m : Model} {m2 : Model} {ps : Point}
    (h : layersLoop orc aq dbl dtl ll rl m none ls = .ok (.cont m2 (some ps))) :
    AssignedPipe aq dbl dtl ll rl ps := by
  obtain ⟨_, _, _, _, hpp⟩ := layersLoop_cont h
  rcases hpp with hnone | ⟨p, hp, ha⟩
  · exact Option.noConfusion hnone
  · injection hp with hp1
    rw [hp1]
    exact ha

theorem qmin_le_left (a b : ℚ) : qmin a b ≤ a := by
  unfold qmin
  split
  · exact le_refl a
  · exact le_of_not_le (by assumption)

theorem le_qmax_right (a b : ℚ) : b ≤ qmax a b := by
  unfold qmax
  split
  · assumption
  · exact le_refl b

theorem qmax_zero_pos_iff (a : ℚ) : 0 < qmax a 0 ↔ 0 < a := by
  unfold qmax
  split
  · exact Iff.rfl
  · rename_i hna
    simp only [lt_self_iff_false, false_iff, not_lt]
    exact le_of_not_le hna

theorem qmax_zero_of_pos {a : ℚ} (h : 0 < a) : qmax a 0 = a := by
  unfold qmax
  rw [if_pos h.le]

/-- The polder boundary condition of a finished model, when the layer loop
left no boundary condition on the model. -/
theorem polderBC_finishModel (sc : Scenario) (slr : ℚ) (usb : Bool)
    (reg : ℚ → ℚ → ℚ → ℚ → ℚ) (dbl dbr dtr : CrosssectionPoint) (m1 : Model)
    (zs : List ℚ) (xl xr : ℚ) (aq : SoilLayer) (ps : Point)
    (hm1 : m1.boundary_conditions = []) :
    polderBC (finishModel sc slr usb reg dbl dbr dtr m1 zs xl xr aq ps) =
      some ⟨[Point.mk dbl.x dbl.z, Point.mk dbr.x dbr.z],
        (if 0 < qmax (dbl.z - aq.top) 0 then
          sc.gehanteerd_polderpeil + (3 / 10) * qmax (dbl.z - aq.top) 0
        else sc.gehanteerd_polderpeil), "polder"⟩ := by
  have h1 : (("phi_ws" : String) == "polder") = false := rfl
  have h2 : (("phi_hinter" : String) == "polder") = false := rfl
  have h3 : (("polder" : String) == "polder") = true := rfl
  unfold polderBC finishModel Model.add_boundary_condition
  cases usb <;> simp [hm1, List.find?, h1, h2, h3]

/-- The first pipe point of a finished model. -/
theorem pipeFirstPoint_finishModel (sc : Scenario) (slr : ℚ) (usb : Bool)
    (reg : ℚ → ℚ → ℚ → ℚ → ℚ) (dbl dbr dtr : CrosssectionPoint) (m1 : Model)
    (zs : List ℚ) (xl xr : ℚ) (aq : SoilLayer) (ps : Point) :
    pipeFirstPoint (finishModel sc slr usb reg dbl dbr dtr m1 zs xl xr aq ps) =
      some (Point.mk ps.x aq.top) := by
  unfold pipeFirstPoint finishModel
  cases usb <;> rfl

/-! ## Claim C1 -/

/-- C1 (amended): exceptions do escape `to_dgeoflow_model`.  In particular,
when the SLOOT_1D ditch landmark is absent from the cross-section, the
ordering check dereferences the None lookup and an AttributeError escapes
instead of a `(log, None)` return. -/
theorem C1_missing_landmark_raises (sc : Scenario) (ks af slr : ℚ) (usb : Bool)
    (orc : SoilLayer → ShapelyResult) (reg : ℚ → ℚ → ℚ → ℚ → ℚ)
    (h : sc.crosssection.get_point_by_point_type .SLOOT_1D = none) :
    sc.to_dgeoflow_model ks af slr usb orc reg = .error .attributeError := by
  unfold Scenario.to_dgeoflow_model
  rw [h]
  rfl

/-- Witness for the amended C1 at the concrete scenario without ditch
points. -/
theorem C1_missing_landmark_raises_witness :
    scND.crosssection.get_point_by_point_type .SLOOT_1D = none ∧
      scND.to_dgeoflow_model 6 2 0 true orcW regZero = .error .attributeError :=
  ⟨of_decide_eq_true (by with_unfolding_all rfl),
   C1_missing_landmark_raises scND 6 2 0 true orcW regZero
     (of_decide_eq_true (by with_unfolding_all rfl))⟩

/-- Counterexample to C1 as stated: on a scenario whose cross-section lacks
the four ditch landmark points, `to_dgeoflow_model` raises an AttributeError
instead of returning the accumulated log with a None model. -/
theorem C1_counterexample :
    runND = .error .attributeError :=
  of_decide_eq_true (by with_unfolding_all rfl)

/-! ## Claim C5 -/

/-- C5: when SLOOT_1D, SLOOT_1C and SLOOT_1A are present and the ditch
x-coordinates are misordered, `to_dgeoflow_model` returns the log (whose
single entry carries the three offending coordinates) together with a None
model, and does not raise. -/
theorem C5_invalid_ditch_returns_log_none (sc : Scenario) (ks af slr : ℚ)
    (usb : Bool) (orc : SoilLayer → ShapelyResult) (reg : ℚ → ℚ → ℚ → ℚ → ℚ)
    (dbl dbr dtr : CrosssectionPoint)
    (hdbl : sc.crosssection.get_point_by_point_type .SLOOT_1D = some dbl)
    (hdbr : sc.crosssection.get_point_by_point_type .SLOOT_1C = some dbr)
    (hdtr : sc.crosssection.get_point_by_point_type .SLOOT_1A = some dtr)
    (hbad : dbl.x ≥ dbr.x ∨ dbr.x ≥ dtr.x) :
    sc.to_dgeoflow_model ks af slr usb orc reg =
      .ok ([LogLine.invalidDitch dbl.x dbr.x dtr.x], none, sc.crosssection) := by
  unfold Scenario.to_dgeoflow_model
  rw [hdbl, hdbr, hdtr]
  simp only [fromOpt, bindE]
  rw [if_pos hbad]

/-- Witness for C5 at a concrete degenerate ditch (13 ≥ 10). -/
theorem C5_invalid_ditch_returns_log_none_witness :
    scB.to_dgeoflow_model 6 2 0 true orcW regZero =
      .ok ([LogLine.invalidDitch 13 10 20], none, scB.crosssection) :=
  C5_invalid_ditch_returns_log_none scB 6 2 0 true orcW regZero
    ⟨13, -2, .SLOOT_1D⟩ ⟨10, -2, .SLOOT_1C⟩ ⟨20, 1, .SLOOT_1A⟩
    (of_decide_eq_true (by with_unfolding_all rfl))
    (of_decide_eq_true (by with_unfolding_all rfl))
    (of_decide_eq_true (by with_unfolding_all rfl))
    (Or.inl (of_decide_eq_true (by with_unfolding_all rfl)))

/-! ## Claim C2 -/

/-- C2 (amended): whenever `to_dgeoflow_model` returns a model, the
polder/ditch boundary polyline is exactly the two ditch bottom points: it
starts at the ditch-bottom-left point and ends at the ditch-bottom-right
point.  The POLDER_BOUNDARY_WIDTH window of settings.py is never applied. -/
theorem C2_polder_boundary_spec (sc : Scenario) (ks af slr : ℚ) (usb : Bool)
    (orc : SoilLayer → ShapelyResult) (reg : ℚ → ℚ → ℚ → ℚ → ℚ)
    (dbl dbr : CrosssectionPoint)
    (hok : isOkSome (sc.to_dgeoflow_model ks af slr usb orc reg) = true)
    (hdbl : sc.crosssection.get_point_by_point_type .SLOOT_1D = some dbl)
    (hdbr : sc.crosssection.get_point_by_point_type .SLOOT_1C = some dbr) :
    ((resultModel (sc.to_dgeoflow_model ks af slr usb orc reg)).bind
        polderBC).map (fun bc => bc.points) =
      some [Point.mk dbl.x dbl.z, Point.mk dbr.x dbr.z] := by
  obtain ⟨lg, m, csf, hrun⟩ := isOkSome_eq_true_iff.mp hok
  obtain ⟨dbl', dbr', dtr', cs1, m1, ps, zs, xl, xr, aq, hdbl', hdbr', hdtr',
    hcond, hll, hlr, hloop, hzs, hxl, hxr, haq, hL, hM⟩ :=
    to_dgeoflow_model_ok_some sc ks af slr usb orc reg lg m csf hrun
  have e1 := hdbl.symm.trans hdbl'
  injection e1 with e1
  subst e1
  have e2 := hdbr.symm.trans hdbr'
  injection e2 with e2
  subst e2
  have hres : resultModel (sc.to_dgeoflow_model ks af slr usb orc reg)
      = some m := by rw [hrun]; rfl
  rw [hres]
  subst hM
  have hm1 : m1.boundary_conditions = [] := (layersLoop_cont hloop).1
  have hp := polderBC_finishModel sc slr usb reg dbl dbr dtr' m1 zs xl xr aq ps hm1
  rw [show ((some (finishModel sc slr usb reg dbl dbr dtr' m1 zs xl xr aq ps)).bind
      polderBC) = polderBC (finishModel sc slr usb reg dbl dbr dtr' m1 zs xl xr
      aq ps) from rfl, hp]
  rfl

/-- Witness for the amended C2 at the example scenario: the polder polyline
is the segment from (10, -2) to (13, -2). -/
theorem C2_polder_boundary_spec_witness :
    ((resultModel runW).bind polderBC).map (fun bc => bc.points) =
      some [Point.mk 10 (-2), Point.mk 13 (-2)] :=
  C2_polder_boundary_spec scW 6 2 0 true orcW regZero
    ⟨10, -2, .SLOOT_1D⟩ ⟨13, -2, .SLOOT_1C⟩
    (of_decide_eq_true (by with_unfolding_all rfl))
    (of_decide_eq_true (by with_unfolding_all rfl))
    (of_decide_eq_true (by with_unfolding_all rfl))

/-- Counterexample to C2 as stated: on the example of the spec
(Sloot_1D = (10, -2), Sloot_1C = (13, -2)), the polder boundary polyline
ends at x = 13, not at min(13, 10 + POLDER_BOUNDARY_WIDTH) = 11. -/
theorem C2_counterexample :
    ((resultModel runW).bind polderBC).map
        (fun bc => (bc.points.getLast?).map (fun p => p.x)) =
      some (some 13) ∧
    ¬ (13 : ℚ) = qmin 13 (10 + POLDER_BOUNDARY_WIDTH) :=
  of_decide_eq_true (by with_unfolding_all rfl)

/-! ## Claim C3 -/

/-- C3: whenever `to_dgeoflow_model` returns a model, the head of the polder
boundary condition is `gehanteerd_polderpeil + 0.3 * (dbl.z - aq.top)` when
the ditch bottom lies strictly above the aquifer top, and the raw
`gehanteerd_polderpeil` otherwise, in which case the caveat warning is in the
returned log. -/
theorem C3_polder_head_rule (sc : Scenario) (ks af slr : ℚ) (usb : Bool)
    (orc : SoilLayer → ShapelyResult) (reg : ℚ → ℚ → ℚ → ℚ → ℚ)
    (dbl : CrosssectionPoint) (aq : SoilLayer)
    (hok : isOkSome (sc.to_dgeoflow_model ks af slr usb orc reg) = true)
    (hdbl : sc.crosssection.get_point_by_point_type .SLOOT_1D = some dbl)
    (haq : sc.soilprofile.aquifer = some aq) :
    (aq.top < dbl.z →
      ((resultModel (sc.to_dgeoflow_model ks af slr usb orc reg)).bind
          polderBC).map (fun bc => bc.head_level) =
        some (sc.gehanteerd_polderpeil + (3 / 10) * (dbl.z - aq.top))) ∧
    (dbl.z ≤ aq.top →
      ((resultModel (sc.to_dgeoflow_model ks af slr usb orc reg)).bind
          polderBC).map (fun bc => bc.head_level) =
        some sc.gehanteerd_polderpeil ∧
      ∃ lg, resultLog (sc.to_dgeoflow_model ks af slr usb orc reg) = some lg ∧
        LogLine.noD03Warning ∈ lg) := by
  obtain ⟨lg, m, csf, hrun⟩ := isOkSome_eq_true_iff.mp hok
  obtain ⟨dbl', dbr', dtr', cs1, m1, ps, zs, xl, xr, aq', hdbl', hdbr', hdtr',
    hcond, hll, hlr, hloop, hzs, hxl, hxr, haq', hL, hM⟩ :=
    to_dgeoflow_model_ok_some sc ks af slr usb orc reg lg m csf hrun
  have e1 := hdbl.symm.trans hdbl'
  injection e1 with e1
  subst e1
  have e2 := haq.symm.trans haq'
  injection e2 with e2
  subst e2
  have hres : resultModel (sc.to_dgeoflow_model ks af slr usb orc reg)
      = some m := by rw [hrun]; rfl
  have hlog : resultLog (sc.to_dgeoflow_model ks af slr usb orc reg)
      = some lg := by rw [hrun]; rfl
  have hm1 : m1.boundary_conditions = [] := (layersLoop_cont hloop).1
  constructor
  · intro hlt
    have hd : (0 : ℚ) < dbl.z - aq.top := by linarith
    rw [hres]
    subst hM
    have hp := polderBC_finishModel sc slr usb reg dbl dbr' dtr' m1 zs xl xr aq ps hm1
    rw [show ((some (finishModel sc slr usb reg dbl dbr' dtr' m1 zs xl xr aq
        ps)).bind polderBC) = polderBC (finishModel sc slr usb reg dbl dbr' dtr'
        m1 zs xl xr aq ps) from rfl, hp]
    simp only [Option.map_some']
    rw [if_pos ((qmax_zero_pos_iff _).mpr hd), qmax_zero_of_pos hd]
  · intro hle
    have hd : ¬ (0 : ℚ) < qmax (dbl.z - aq.top) 0 := by
      rw [qmax_zero_pos_iff]
      linarith
    constructor
    · rw [hres]
      subst hM
      have hp := polderBC_finishModel sc slr usb reg dbl dbr' dtr' m1 zs xl xr aq ps hm1
      rw [show ((some (finishModel sc slr usb reg dbl dbr' dtr' m1 zs xl xr aq
          ps)).bind polderBC) = polderBC (finishModel sc slr usb reg dbl dbr'
          dtr' m1 zs xl xr aq ps) from rfl, hp]
      simp only [Option.map_some']
      rw [if_neg hd]
    · refine ⟨lg, hlog, ?_⟩
      subst hL
      unfold finishLog
      rw [if_neg hd]
      exact List.mem_append_right _ (List.mem_singleton.mpr rfl)

/-- Witness for C3 at the example scenario, where the ditch bottom (-2) lies
below the aquifer top (-1): the raw polder level -1 is used and the caveat
is logged. -/
theorem C3_polder_head_rule_witness :
    ((-1 : ℚ) < -2 →
      ((resultModel runW).bind polderBC).map (fun bc => bc.head_level) =
        some (-1 + (3 / 10) * (-2 - -1))) ∧
    ((-2 : ℚ) ≤ -1 →
      ((resultModel runW).bind polderBC).map (fun bc => bc.head_level) =
        some (-1) ∧
      ∃ lg, resultLog runW = some lg ∧ LogLine.noD03Warning ∈ lg) :=
  C3_polder_head_rule scW 6 2 0 true orcW regZero
    ⟨10, -2, .SLOOT_1D⟩ layerAqW
    (of_decide_eq_true (by with_unfolding_all rfl))
    (of_decide_eq_true (by with_unfolding_all rfl))
    (of_decide_eq_true (by with_unfolding_all rfl))

/-! ## Claim C10 -/

/-- A point returned by the segment intersection lies at the height of the
horizontal line. -/
theorem horizSegIntersection_z {z xl xr : ℚ} {c d p : Point}
    (h : horizSegIntersection z xl xr c d = some p) : p.z = z := by
  unfold horizSegIntersection at h
  split at h
  · exact Option.noConfusion h
  · split at h
    · split at h
      · injection h with h1
        rw [← h1]
      · exact Option.noConfusion h
    · exact Option.noConfusion h

/-- When the horizontal line passes exactly through the endpoint d of a
non-horizontal segment c-d whose x coordinate lies in the window, the
intersection is that endpoint. -/
theorem horizSegIntersection_endpoint {xl xr : ℚ} {c d : Point}
    (hne : ¬ c.z = d.z) (h1 : qmin xl xr ≤ d.x) (h2 : d.x ≤ qmax xl xr) :
    horizSegIntersection d.z xl xr c d = some ⟨d.x, d.z⟩ := by
  unfold horizSegIntersection
  rw [if_neg hne]
  have hsub : d.z - c.z ≠ 0 := sub_ne_zero.mpr (fun hh => hne hh.symm)
  have ht : (d.z - c.z) / (d.z - c.z) = 1 := div_self hsub
  simp only [ht]
  rw [if_pos ⟨zero_le_one, le_refl (1 : ℚ)⟩]
  have hxi : c.x + 1 * (d.x - c.x) = d.x := by ring
  rw [hxi, if_pos ⟨h1, h2⟩]

/-! ## Claim C4 -/

/-- C4: whenever `to_dgeoflow_model` returns a model (for a scenario with the
four ditch landmarks, an aquifer, a non-degenerate left ditch slope and an
entry point left of the ditch), the pipe trajectory starts at the
intersection of the horizontal line at the aquifer top with the left ditch
slope when the aquifer top is at or above the ditch bottom, and at
(ditch-bottom-left x, aquifer top) when the aquifer top is below the ditch
bottom. -/
theorem C4_pipe_start_rule (sc : Scenario) (ks af slr : ℚ) (usb : Bool)
    (orc : SoilLayer → ShapelyResult) (reg : ℚ → ℚ → ℚ → ℚ → ℚ)
    (dbl dtr dtl : CrosssectionPoint) (aq : SoilLayer)
    (hok : isOkSome (sc.to_dgeoflow_model ks af slr usb orc reg) = true)
    (hdbl : sc.crosssection.get_point_by_point_type .SLOOT_1D = some dbl)
    (hdtr : sc.crosssection.get_point_by_point_type .SLOOT_1A = some dtr)
    (hdtl : sc.crosssection.get_point_by_point_type .SLOOT_1B = some dtl)
    (haq : sc.soilprofile.aquifer = some aq)
    (hslope : ¬ dtl.z = dbl.z)
    (hleft : sc.x_intredepunt ≤ dbl.x) :
    (dbl.z ≤ aq.top →
      ∃ ip, horizSegIntersection aq.top sc.x_intredepunt
          (dtr.x + SLOOT_1A_OFFSET) ⟨dtl.x, dtl.z⟩ ⟨dbl.x, dbl.z⟩ = some ip ∧
        (resultModel (sc.to_dgeoflow_model ks af slr usb orc reg)).bind
          pipeFirstPoint = some ip) ∧
    (aq.top < dbl.z →
      (resultModel (sc.to_dgeoflow_model ks af slr usb orc reg)).bind
        pipeFirstPoint = some (Point.mk dbl.x aq.top)) := by
  obtain ⟨lg, m, csf, hrun⟩ := isOkSome_eq_true_iff.mp hok
  obtain ⟨dbl', dbr', dtr', cs1, m1, ps, zs, xl, xr, aq', hdbl', hdbr', hdtr',
    hcond, hll, hlr, hloop, hzs, hxl, hxr, haq', hL, hM⟩ :=
    to_dgeoflow_model_ok_some sc ks af slr usb orc reg lg m csf hrun
  have e1 := hdbl.symm.trans hdbl'
  injection e1 with e1
  subst e1
  have e2 := hdtr.symm.trans hdtr'
  injection e2 with e2
  subst e2
  have e3 := haq.symm.trans haq'
  injection e3 with e3
  subst e3
  have hres : resultModel (sc.to_dgeoflow_model ks af slr usb orc reg)
      = some m := by rw [hrun]; rfl
  have hpipe : (resultModel (sc.to_dgeoflow_model ks af slr usb orc reg)).bind
      pipeFirstPoint = some (Point.mk ps.x aq.top) := by
    rw [hres]
    subst hM
    rw [show ((some (finishModel sc slr usb reg dbl dbr' dtr m1 zs xl xr aq
        ps)).bind pipeFirstPoint) = pipeFirstPoint (finishModel sc slr usb reg
        dbl dbr' dtr m1 zs xl xr aq ps) from rfl]
    exact pipeFirstPoint_finishModel sc slr usb reg dbl dbr' dtr m1 zs xl xr
      aq ps
  obtain ⟨a, ha, hcase⟩ := layersLoop_pipe_assigned hloop
  have e4 := haq.symm.trans ha
  injection e4 with e4
  subst e4
  rcases hcase with ⟨hlt, dtlp, hdtlp, hint⟩ | ⟨hge, hx⟩
  · have e5 := hdtl.symm.trans hdtlp
    injection e5 with e5
    subst e5
    constructor
    · intro _
      refine ⟨ps, hint, ?_⟩
      rw [hpipe, ← horizSegIntersection_z hint]
    · intro habs
      exact absurd habs (lt_asymm hlt)
  · constructor
    · intro hle
      have heq : aq.top = dbl.z := le_antisymm (not_lt.mp hge) hle
      push_neg at hcond
      have hoff : (0 : ℚ) ≤ SLOOT_1A_OFFSET := by norm_num [SLOOT_1A_OFFSET]
      have hxr2 : dbl.x ≤ dtr.x + SLOOT_1A_OFFSET := by
        obtain ⟨hc1, hc2⟩ := hcond
        linarith
      have hint2 : horizSegIntersection aq.top sc.x_intredepunt
          (dtr.x + SLOOT_1A_OFFSET) ⟨dtl.x, dtl.z⟩ ⟨dbl.x, dbl.z⟩ =
          some ⟨dbl.x, aq.top⟩ := by
        rw [heq]
        exact horizSegIntersection_endpoint hslope
          (le_trans (qmin_le_left _ _) hleft)
          (le_trans hxr2 (le_qmax_right _ _))
      refine ⟨⟨dbl.x, aq.top⟩, hint2, ?_⟩
      rw [hpipe, hx]
    · intro _
      rw [hpipe, hx]

/-- Witness for C4 at the example scenario: the aquifer top (-1) lies above
the ditch bottom (-2), and the pipe starts at the slope intersection
(19/2, -1). -/
theorem C4_pipe_start_rule_witness :
    ((-2 : ℚ) ≤ -1 →
      ∃ ip, horizSegIntersection (-1) 0 (20 + SLOOT_1A_OFFSET)
          ⟨9, 0⟩ ⟨10, -2⟩ = some ip ∧
        (resultModel runW).bind pipeFirstPoint = some ip) ∧
    ((-1 : ℚ) < -2 →
      (resultModel runW).bind pipeFirstPoint = some (Point.mk 10 (-1))) :=
  C4_pipe_start_rule scW 6 2 0 true orcW regZero
    ⟨10, -2, .SLOOT_1D⟩ ⟨20, 1, .SLOOT_1A⟩ ⟨9, 0, .SLOOT_1B⟩ layerAqW
    (of_decide_eq_true (by with_unfolding_all rfl))
    (of_decide_eq_true (by with_unfolding_all rfl))
    (of_decide_eq_true (by with_unfolding_all rfl))
    (of_decide_eq_true (by with_unfolding_all rfl))
    (of_decide_eq_true (by with_unfolding_all rfl))
    (of_decide_eq_true (by with_unfolding_all rfl))
    (of_decide_eq_true (by with_unfolding_all rfl))

/-- C10 (amended): `to_dgeoflow_model` is not read-only on the cross-section:
on a successful build the scenario's cross-section has been replaced, in
place, by its truncation to the window from the entry point to
`sloot_1a.x + SLOOT_1A_OFFSET` (the truncation also retags the first point).
No other scenario state is touched: the soil profile is never mutated by this
function. -/
theorem C10_truncation_spec (sc : Scenario) (ks af slr : ℚ) (usb : Bool)
    (orc : SoilLayer → ShapelyResult) (reg : ℚ → ℚ → ℚ → ℚ → ℚ)
    (dtr : CrosssectionPoint)
    (hok : isOkSome (sc.to_dgeoflow_model ks af slr usb orc reg) = true)
    (hdtr : sc.crosssection.get_point_by_point_type .SLOOT_1A = some dtr) :
    ∃ cs1 cs2,
      sc.crosssection.limit_left sc.x_intredepunt = .ok cs1 ∧
      cs1.limit_right (dtr.x + SLOOT_1A_OFFSET) = .ok cs2 ∧
      resultCS (sc.to_dgeoflow_model ks af slr usb orc reg) = some cs2 := by
  obtain ⟨lg, m, csf, hrun⟩ := isOkSome_eq_true_iff.mp hok
  obtain ⟨dbl', dbr', dtr', cs1, m1, ps, zs, xl, xr, aq', hdbl', hdbr', hdtr',
    hcond, hll, hlr, hloop, hzs, hxl, hxr, haq', hL, hM⟩ :=
    to_dgeoflow_model_ok_some sc ks af slr usb orc reg lg m csf hrun
  have e1 := hdtr.symm.trans hdtr'
  injection e1 with e1
  subst e1
  refine ⟨cs1, csf, hll, hlr, ?_⟩
  rw [hrun]
  rfl

/-- Witness for the amended C10 at the example scenario. -/
theorem C10_truncation_spec_witness :
    ∃ cs1 cs2,
      scW.crosssection.limit_left scW.x_intredepunt = .ok cs1 ∧
      cs1.limit_right (20 + SLOOT_1A_OFFSET) = .ok cs2 ∧
      resultCS runW = some cs2 :=
  C10_truncation_spec scW 6 2 0 true orcW regZero ⟨20, 1, .SLOOT_1A⟩
    (of_decide_eq_true (by with_unfolding_all rfl))
    (of_decide_eq_true (by with_unfolding_all rfl))

/-- Counterexample to C10 as stated: the example run succeeds, yet the
cross-section coming out of `to_dgeoflow_model` differs from the one the
scenario was built with, so the point sequence is mutated by geometry
building itself. -/
theorem C10_counterexample :
    isOkSome runW = true ∧ ¬ resultCS runW = some scW.crosssection :=
  of_decide_eq_true (by with_unfolding_all rfl)

/-! ## Claim C6 -/

theorem cutLayers_length (z : ℚ) :
    ∀ ls : List SoilLayer, (cutLayers z ls).length ≤ ls.length
  | [] => le_refl 0
  | sl :: rest => by
    rw [cutLayers]
    split
    · exact Nat.succ_le_succ (cutLayers_length z rest)
    · split
      · exact le_trans (cutLayers_length z rest) (Nat.le_succ _)
      · exact Nat.succ_le_succ (cutLayers_length z rest)

/-- Every layer surviving a cut has its top at or below the cut level. -/
theorem cutLayers_top_le (z : ℚ) :
    ∀ ls : List SoilLayer, ∀ sl ∈ cutLayers z ls, sl.top ≤ z
  | [] => by simp [cutLayers]
  | l :: rest => by
    rw [cutLayers]
    split
    case isTrue hle =>
      intro sl hsl
      rcases List.mem_cons.mp hsl with rfl | hm
      · exact hle
      · exact cutLayers_top_le z rest sl hm
    case isFalse hgt =>
      split
      case isTrue => exact cutLayers_top_le z rest
      case isFalse =>
        intro sl hsl
        rcases List.mem_cons.mp hsl with rfl | hm
        · exact le_refl z
        · exact cutLayers_top_le z rest sl hm

/-- Cutting is the identity on a stack whose tops are already at or below the
cut level. -/
theorem cutLayers_id_of_top_le (z : ℚ) :
    ∀ ls : List SoilLayer, (∀ sl ∈ ls, sl.top ≤ z) → cutLayers z ls = ls
  | [], _ => rfl
  | l :: rest, h => by
    rw [cutLayers, if_pos (h l (List.mem_cons_self l rest)),
      cutLayers_id_of_top_le z rest (fun sl hs => h sl (List.mem_cons_of_mem l hs))]

/-- The top of the cut stack: for a contiguous stack of positive-height
layers whose bottom lies strictly below the cut level, the first surviving
layer tops out at min(original top, z). -/
theorem cutLayers_head_top (z : ℚ) :
    ∀ (l : SoilLayer) (ls : List SoilLayer) (b : ℚ),
    List.Chain' (fun a b2 => a.bottom = b2.top) (l :: ls) →
    (∀ sl ∈ l :: ls, sl.bottom < sl.top) →
    ((l :: ls).getLast?).map (fun sl => sl.bottom) = some b →
    b < z →
    ((cutLayers z (l :: ls)).head?).map (fun sl => sl.top) = some (min l.top z)
  | l, [], b, hch, hpos, hlast, hbz => by
    have hb : l.bottom = b := by
      simpa using hlast
    rw [cutLayers]
    split
    case isTrue hle =>
      simp [min_eq_left hle]
    case isFalse hgt =>
      split
      case isTrue hble =>
        exact absurd (lt_of_le_of_lt (hb ▸ hble) hbz) (lt_irrefl z)
      case isFalse hbgt =>
        simp [min_eq_right (le_of_lt (not_le.mp hgt))]
  | l, l2 :: rest, b, hch, hpos, hlast, hbz => by
    rw [cutLayers]
    split
    case isTrue hle =>
      simp [min_eq_left hle]
    case isFalse hgt =>
      have hzlt : z < l.top := not_le.mp hgt
      split
      case isTrue hble =>
        have hcontig : l.bottom = l2.top := List.chain'_cons.mp hch |>.1
        have ih := cutLayers_head_top z l2 rest b
          (List.chain'_cons.mp hch).2
          (fun sl hs => hpos sl (List.mem_cons_of_mem l hs))
          (by simpa [List.getLast?_cons_cons] using hlast)
          hbz
        rw [ih, min_eq_right (hcontig ▸ hble), min_eq_right (le_of_lt hzlt)]
      case isFalse hbgt =>
        simp [min_eq_right (le_of_lt hzlt)]

/-- C6 (amended): for a soil profile satisfying the layer invariants and a
cut level strictly above the profile bottom, `cut_top_at_z` leaves a profile
whose top is min(original top, z); for every cut level the layer count is
non-increasing and re-cutting at any level at or above a previous cut is the
identity.  (When the cut level is at or below the profile bottom, every layer
is dropped and the resulting profile has no top at all, so the min equation
cannot hold there.) -/
theorem C6_cut_top_at_z_spec (sp : SoilProfile) (z b t : ℚ)
    (hv : sp.Valid) (ht : sp.topO = some t) (hb : sp.bottomO = some b)
    (hz : b < z) :
    (sp.cut_top_at_z z).topO = some (min t z) ∧
    (∀ w : ℚ, ((sp.cut_top_at_z w).soillayers).length ≤ sp.soillayers.length) ∧
    (∀ w w' : ℚ, w ≤ w' →
      (sp.cut_top_at_z w).cut_top_at_z w' = sp.cut_top_at_z w) := by
  obtain ⟨hne, hch, hpos⟩ := hv
  refine ⟨?_, ?_, ?_⟩
  · cases hls : sp.soillayers with
    | nil => exact absurd hls hne
    | cons l ls =>
      have htl : t = l.top := by
        unfold SoilProfile.topO at ht
        rw [hls] at ht
        simpa using ht.symm
      unfold SoilProfile.cut_top_at_z SoilProfile.topO
      simp only [hls]
      rw [htl]
      exact cutLayers_head_top z l ls b (hls ▸ hch) (hls ▸ hpos)
        (by unfold SoilProfile.bottomO at hb; rw [hls] at hb; exact hb) hz
  · intro w
    exact cutLayers_length w sp.soillayers
  · intro w w' hww
    unfold SoilProfile.cut_top_at_z
    simp only
    rw [cutLayers_id_of_top_le w' _
      (fun sl hs => le_trans (cutLayers_top_le w sp.soillayers sl hs) hww)]

/-- Witness for the amended C6: the three-layer test profile cut at -1. -/
theorem C6_cut_top_at_z_spec_witness :
    (spT.cut_top_at_z (-1)).topO = some (min (2 : ℚ) (-1)) ∧
    (∀ w : ℚ, ((spT.cut_top_at_z w).soillayers).length ≤
      spT.soillayers.length) ∧
    (∀ w w' : ℚ, w ≤ w' →
      (spT.cut_top_at_z w).cut_top_at_z w' = spT.cut_top_at_z w) :=
  C6_cut_top_at_z_spec spT (-1) (-10) 2
    ⟨by simp [spT],
     by norm_num [spT, List.chain'_cons],
     by
      intro sl hs
      simp only [spT, List.mem_cons, List.not_mem_nil, or_false] at hs
      rcases hs with rfl | rfl | rfl <;> norm_num⟩
    (of_decide_eq_true (by with_unfolding_all rfl))
    (of_decide_eq_true (by with_unfolding_all rfl))
    (of_decide_eq_true (by with_unfolding_all rfl))

/-- Counterexample to C6 as stated: cutting the test profile at z = -15,
below its bottom -10, drops every layer, so the resulting profile has no top
and in particular its top is not min(2, -15). -/
theorem C6_counterexample :
    (spT.cut_top_at_z (-15)).soillayers = [] ∧
    (spT.cut_top_at_z (-15)).topO = none ∧
    ¬ (spT.cut_top_at_z (-15)).topO = some (min (2 : ℚ) (-15)) :=
  of_decide_eq_true (by with_unfolding_all rfl)

/-! ## Claim C7 -/

theorem aquiferAux_mem {n : ℤ} :
    ∀ {ls : List SoilLayer} {a : SoilLayer}, aquiferAux n ls = some a → a ∈ ls
  | [], a, h => Option.noConfusion h
  | l :: rest, a, h => by
    rw [aquiferAux] at h
    split at h
    · injection h with h1
      exact h1 ▸ List.mem_cons_self l rest
    · exact List.mem_cons_of_mem l (aquiferAux_mem h)

theorem sthAux_none_none : ∀ (ls : List SoilLayer) (acc : List ℚ),
    sthAux none ls acc = none
  | [], _ => rfl
  | l :: rest, acc => by
    rw [sthAux]
    rw [if_neg (by simp)]
    exact sthAux_none_none rest (acc ++ [l.bottom])

theorem sthAux_some_eq_none_iff {aq : SoilLayer} :
    ∀ (ls : List SoilLayer) (acc : List ℚ),
    sthAux (some aq) ls acc = none ↔ aq ∉ ls
  | [], acc => by simp [sthAux]
  | l :: rest, acc => by
    rw [sthAux]
    by_cases hl : l = aq
    · subst hl
      rw [if_pos rfl]
      simp
    · rw [if_neg (by simpa using fun hh => hl hh)]
      rw [sthAux_some_eq_none_iff rest (acc ++ [l.bottom])]
      simp only [List.mem_cons, not_or]
      constructor
      · intro h
        exact ⟨fun hh => hl hh.symm, h⟩
      · intro h
        exact h.2

theorem sthAux_split {aq : SoilLayer} :
    ∀ (ls : List SoilLayer) (acc : List ℚ), aq ∈ ls →
    ∃ pre post, ls = pre ++ aq :: post ∧ aq ∉ pre ∧
      sthAux (some aq) ls acc =
        some (acc ++ (pre ++ [aq]).map (fun sl => sl.bottom) ++ [aq.top])
  | [], acc, hmem => absurd hmem (List.not_mem_nil aq)
  | l :: rest, acc, hmem => by
    rw [sthAux]
    by_cases hl : l = aq
    · subst hl
      rw [if_pos rfl]
      exact ⟨[], rest, rfl, List.not_mem_nil l, by simp⟩
    · rw [if_neg (by simpa using fun hh => hl hh)]
      have hmem2 : aq ∈ rest := by
        rcases List.mem_cons.mp hmem with hh | hh
        · exact absurd hh.symm hl
        · exact hh
      obtain ⟨pre, post, hsplit, hnot, hres⟩ :=
        sthAux_split rest (acc ++ [l.bottom]) hmem2
      refine ⟨l :: pre, post, by rw [hsplit, List.cons_append], ?_, ?_⟩
      · intro hh
        rcases List.mem_cons.mp hh with hh2 | hh2
        · exact hl hh2.symm
        · exact hnot hh2
      · rw [hres]
        congr 1
        simp

/-- C7: `get_sth_intredepunt_zs` returns None exactly when the profile has no
aquifer; otherwise it returns the bottoms of the layers walked bottom-to-top
up to and including the aquifer layer, with the aquifer top as the final
appended value. -/
theorem C7_get_sth_intredepunt_spec (sp : SoilProfile) :
    (sp.get_sth_intredepunt_zs = none ↔ sp.aquifer = none) ∧
    (∀ aq, sp.aquifer = some aq →
      ∃ pre post, sp.soillayers.reverse = pre ++ aq :: post ∧ aq ∉ pre ∧
        sp.get_sth_intredepunt_zs =
          some ((pre ++ [aq]).map (fun sl => sl.bottom) ++ [aq.top])) := by
  constructor
  · cases haq : sp.aquifer with
    | none =>
      unfold SoilProfile.get_sth_intredepunt_zs
      rw [haq]
      simp [sthAux_none_none]
    | some aq =>
      unfold SoilProfile.get_sth_intredepunt_zs
      rw [haq]
      rw [sthAux_some_eq_none_iff]
      have hmem : aq ∈ sp.soillayers.reverse :=
        List.mem_reverse.mpr (aquiferAux_mem haq)
      simp [hmem]
  · intro aq haq
    have hmem : aq ∈ sp.soillayers.reverse :=
      List.mem_reverse.mpr (aquiferAux_mem haq)
    obtain ⟨pre, post, hsplit, hnot, hres⟩ :=
      sthAux_split sp.soillayers.reverse [] hmem
    refine ⟨pre, post, hsplit, hnot, ?_⟩
    unfold SoilProfile.get_sth_intredepunt_zs
    rw [haq, hres]
    simp

/-- Witness for C7 at the example profile: the aquifer is the lower layer,
the walk returns its bottom and top. -/
theorem C7_get_sth_intredepunt_spec_witness :
    ∃ pre post, spW.soillayers.reverse = pre ++ layerAqW :: post ∧
      layerAqW ∉ pre ∧
      spW.get_sth_intredepunt_zs =
        some ((pre ++ [layerAqW]).map (fun sl => sl.bottom) ++ [layerAqW.top]) :=
  (C7_get_sth_intredepunt_spec spW).2 layerAqW
    (of_decide_eq_true (by with_unfolding_all rfl))

/-! ## Claim C8 -/

/-- For a contiguous stack of positive-height layers, the top of the first
layer followed by the bottoms (top-down) is strictly decreasing. -/
theorem chain_top_bottoms :
    ∀ (l : SoilLayer) (ls : List SoilLayer),
    List.Chain' (fun a b => a.bottom = b.top) (l :: ls) →
    (∀ sl ∈ l :: ls, sl.bottom < sl.top) →
    List.Chain' (fun a b => b < a)
      (l.top :: (l :: ls).map (fun sl => sl.bottom))
  | l, [], hch, hpos => by
    simp [List.chain'_cons]
    exact hpos l (List.mem_cons_self l [])
  | l, l2 :: rest, hch, hpos => by
    have hcontig : l.bottom = l2.top := (List.chain'_cons.mp hch).1
    have ih := chain_top_bottoms l2 rest (List.chain'_cons.mp hch).2
      (fun sl hs => hpos sl (List.mem_cons_of_mem l hs))
    simp only [List.map_cons, List.chain'_cons] at ih ⊢
    exact ⟨hpos l (List.mem_cons_self l _), hcontig ▸ ih⟩

/-- C8 (amended): for a profile with at least one layer, contiguous layers
and every layer of strictly positive height, `get_soillayer_z_coordinates`
returns exactly one value more than the layer count and the values are
strictly increasing.  (A degenerate zero-height layer, allowed by the literal
invariants of the claim, breaks strictness: see the counterexample.) -/
theorem C8_z_coordinates_spec (sp : SoilProfile) (hv : sp.Valid) :
    sp.get_soillayer_z_coordinates.length = sp.soillayers.length + 1 ∧
    List.Chain' (· < ·) sp.get_soillayer_z_coordinates := by
  obtain ⟨hne, hch, hpos⟩ := hv
  cases hls : sp.soillayers with
  | nil => exact absurd hls hne
  | cons l ls =>
    constructor
    · unfold SoilProfile.get_soillayer_z_coordinates
      rw [hls]
      simp
    · unfold SoilProfile.get_soillayer_z_coordinates
      rw [hls]
      have hrw : ((l :: ls).reverse.map (fun sl => sl.bottom)) ++ [l.top] =
          (l.top :: (l :: ls).map (fun sl => sl.bottom)).reverse := by
        simp
      rw [hrw, List.chain'_reverse]
      exact chain_top_bottoms l ls (hls ▸ hch) (hls ▸ hpos)

/-- Witness for the amended C8 at the three-layer test profile: four strictly
increasing values. -/
theorem C8_z_coordinates_spec_witness :
    spT.get_soillayer_z_coordinates.length = spT.soillayers.length + 1 ∧
    List.Chain' (· < ·) spT.get_soillayer_z_coordinates :=
  C8_z_coordinates_spec spT
    ⟨by simp [spT],
     by norm_num [spT, List.chain'_cons],
     by
      intro sl hs
      simp only [spT, List.mem_cons, List.not_mem_nil, or_false] at hs
      rcases hs with rfl | rfl | rfl <;> norm_num⟩

/-- Counterexample to C8 as stated: a profile with a zero-height bottom layer
satisfies the literal invariants of the claim (contiguous, non-overlapping,
strictly decreasing tops, top at or above bottom) yet its z coordinates
[5, 5, 10] are not strictly increasing. -/
theorem C8_counterexample :
    spZ.soillayers ≠ [] ∧
    List.Chain' (fun a b => a.bottom = b.top) spZ.soillayers ∧
    List.Chain' (fun a b => b.top < a.top) spZ.soillayers ∧
    (∀ sl ∈ spZ.soillayers, sl.bottom ≤ sl.top) ∧
    spZ.get_soillayer_z_coordinates = [5, 5, 10] ∧
    ¬ List.Chain' (· < ·) spZ.get_soillayer_z_coordinates := by
  have hco : spZ.get_soillayer_z_coordinates = [5, 5, 10] :=
    of_decide_eq_true (by with_unfolding_all rfl)
  refine ⟨by simp [spZ], ?_, ?_, ?_, hco, ?_⟩
  · norm_num [spZ, List.chain'_cons]
  · norm_num [spZ, List.chain'_cons]
  · intro sl hs
    simp only [spZ, List.mem_cons, List.not_mem_nil, or_false] at hs
    rcases hs with rfl | rfl <;> norm_num
  · rw [hco]
    simp only [List.chain'_cons]
    norm_num

/-! ## Claim C9 -/

/-- C9: the log-linear fit of `calc_regression` through two samples with
distinct positive x passes exactly through both samples (over the reals). -/
theorem C9_regression_interpolates (x1 x2 y1 y2 : ℝ) (h1 : 0 < x1)
    (h2 : 0 < x2) (hne : x1 ≠ x2) :
    (calc_regression x1 x2 y1 y2 x1).2 = y1 ∧
    (calc_regression x1 x2 y1 y2 x2).2 = y2 := by
  have hlogne : Real.log x1 ≠ Real.log x2 := fun hh =>
    hne (Real.log_injOn_pos (Set.mem_Ioi.mpr h1) (Set.mem_Ioi.mpr h2) hh)
  have hsub : Real.log x1 - Real.log x2 ≠ 0 := sub_ne_zero.mpr hlogne
  unfold calc_regression
  constructor
  · field_simp
    ring
  · field_simp
    ring

/-- Witness for C9 at the samples (1, 0) and (2, 1). -/
theorem C9_regression_interpolates_witness :
    (calc_regression 1 2 0 1 1).2 = 0 ∧ (calc_regression 1 2 0 1 2).2 = 1 :=
  C9_regression_interpolates 1 2 0 1 one_pos (by norm_num) (by norm_num)

end Stph
